import Mathlib

/-!
The esp32-wifi program: station association and TCP handshake.

A shallow embedding of `main/wifi.c`:

* the two event handlers `wifi_event_handler` and `ip_event_handler`, acting on
  the global retry counter and on the event group `wifi_event_group`;
* the part of `connect_wifi` that waits for an outcome bit and decodes it;
* `connect_tcp_server`, as a function of what `socket`, `connect` and `read`
  return.

Calls into the driver and into FreeRTOS are recorded, in the order in which
they are issued, in a trace.
-/

namespace Wifi

/-! ## Constants (`wifi.c`, lines 19-23) -/

/-- Macro `WIFI_SUCCESS`, defined as `1 << 0`. -/
def WIFI_SUCCESS : Nat := 1 <<< 0

/-- Macro `WIFI_FAILURE`, defined as `1 << 1`. -/
def WIFI_FAILURE : Nat := 1 <<< 1

/-- Macro `TCP_SUCCESS`, defined as `1 << 0`. -/
def TCP_SUCCESS : Nat := 1 <<< 0

/-- Macro `TCP_FAILURE`, defined as `1 << 1`. -/
def TCP_FAILURE : Nat := 1 <<< 1

/-- Macro `MAX_FAILURES`, defined as `10`. -/
def MAX_FAILURES : Int := 10

/-! ## Events of the ESP-IDF event loop -/

/-- The event bases the two handlers test for. -/
inductive esp_event_base_t where
  | WIFI_EVENT
  | IP_EVENT
  deriving DecidableEq, Repr

/-- Value of `WIFI_EVENT_STA_START` in the ESP-IDF enumeration `wifi_event_t`. -/
def WIFI_EVENT_STA_START : Int := 2

/-- Value of `WIFI_EVENT_STA_DISCONNECTED` in the ESP-IDF enumeration `wifi_event_t`. -/
def WIFI_EVENT_STA_DISCONNECTED : Int := 5

/-- Value of `IP_EVENT_STA_GOT_IP` in the ESP-IDF enumeration `ip_event_t`. -/
def IP_EVENT_STA_GOT_IP : Int := 0

/-- The calls the handlers make into the driver and into FreeRTOS. -/
inductive Call where
  | esp_wifi_connect
  | xEventGroupSetBits (uxBitsToSet : Nat)
  deriving DecidableEq, Repr

/-- The state shared by the handlers: the global `retry`, the bits of
`wifi_event_group`, and the trace of calls issued so far (oldest first). -/
structure State where
  retry : Int
  bits : Nat
  calls : List Call
  deriving DecidableEq, Repr

/-- The state when the handlers are registered: `static int retry = 0`, a
freshly created event group (all bits clear), nothing called yet. -/
def init : State := ⟨0, 0, []⟩

/-- FreeRTOS `xEventGroupSetBits`: the bits are or-ed into the event group. -/
def xEventGroupSetBits (s : State) (uxBitsToSet : Nat) : State :=
  { s with bits := s.bits ||| uxBitsToSet,
           calls := s.calls ++ [Call.xEventGroupSetBits uxBitsToSet] }

/-- The driver call `esp_wifi_connect()`, recorded in the trace. -/
def esp_wifi_connect (s : State) : State :=
  { s with calls := s.calls ++ [Call.esp_wifi_connect] }

/-- The handler `wifi_event_handler` (lines 40-57). `retry++` is only reached with
`retry < 10`, so the C `int` cannot overflow there. -/
def wifi_event_handler (s : State) (event_base : esp_event_base_t) (event_id : Int) : State :=
  if event_base = esp_event_base_t.WIFI_EVENT ∧ event_id = WIFI_EVENT_STA_START then
    esp_wifi_connect s
  else if event_base = esp_event_base_t.WIFI_EVENT ∧ event_id = WIFI_EVENT_STA_DISCONNECTED then
    if s.retry < MAX_FAILURES then
      let s1 := esp_wifi_connect s
      { s1 with retry := s1.retry + 1 }
    else
      xEventGroupSetBits s WIFI_FAILURE
  else
    s

/-- The handler `ip_event_handler` (lines 61-70). -/
def ip_event_handler (s : State) (event_base : esp_event_base_t) (event_id : Int) : State :=
  if event_base = esp_event_base_t.IP_EVENT ∧ event_id = IP_EVENT_STA_GOT_IP then
    xEventGroupSetBits { s with retry := 0 } WIFI_SUCCESS
  else
    s

/-- The event loop with the two registrations made in `connect_wifi`
(lines 97-108): `wifi_event_handler` for every `WIFI_EVENT`,
`ip_event_handler` for `IP_EVENT` / `IP_EVENT_STA_GOT_IP`. -/
def esp_event_post (s : State) (event_base : esp_event_base_t) (event_id : Int) : State :=
  let s1 := if event_base = esp_event_base_t.WIFI_EVENT then
      wifi_event_handler s event_base event_id else s
  if event_base = esp_event_base_t.IP_EVENT ∧ event_id = IP_EVENT_STA_GOT_IP then
    ip_event_handler s1 event_base event_id
  else s1

/-- The three link events the handlers react to. -/
inductive LinkEvent where
  | Started
  | Disconnected
  | GotAddress
  deriving DecidableEq, Repr

/-- Event base of a link event. -/
def LinkEvent.base : LinkEvent → esp_event_base_t
  | Started => esp_event_base_t.WIFI_EVENT
  | Disconnected => esp_event_base_t.WIFI_EVENT
  | GotAddress => esp_event_base_t.IP_EVENT

/-- Event id of a link event. -/
def LinkEvent.id : LinkEvent → Int
  | Started => WIFI_EVENT_STA_START
  | Disconnected => WIFI_EVENT_STA_DISCONNECTED
  | GotAddress => IP_EVENT_STA_GOT_IP

/-- One step of the handlers: a link event is posted to the event loop. -/
def step (s : State) (e : LinkEvent) : State :=
  esp_event_post s e.base e.id

/-- The handlers run on a sequence of events, in order. -/
def run (s : State) (es : List LinkEvent) : State :=
  es.foldl step s

/-- FreeRTOS `xEventGroupWaitBits` as `connect_wifi` calls it (lines 134-138):
no clear on exit, wait for any of the bits, `portMAX_DELAY`. The caller enters
the wait in state `s`; the list holds the events handled from then on. When an
awaited bit is already set on entry the call returns the event bits at once.
Otherwise the caller blocks, and the `xEventGroupSetBits` that first sets an
awaited bit wakes it with the event bits as they are right after that call;
events handled later do not change the value returned. The result `none` is a
caller still blocked after all the events. -/
def xEventGroupWaitBits (s : State) (uxBitsToWaitFor : Nat) : List LinkEvent → Option Nat
  | [] => if s.bits &&& uxBitsToWaitFor ≠ 0 then some s.bits else none
  | e :: es =>
    if s.bits &&& uxBitsToWaitFor ≠ 0 then some s.bits
    else xEventGroupWaitBits (step s e) uxBitsToWaitFor es

/-- The decoding of the event bits in `connect_wifi` (lines 141-150). -/
def decode (bits : Nat) : Int :=
  if bits &&& WIFI_SUCCESS ≠ 0 then
    WIFI_SUCCESS
  else if bits &&& WIFI_FAILURE ≠ 0 then
    WIFI_FAILURE
  else
    WIFI_FAILURE

/-- The function `connect_wifi` from the wait on (lines 134-157): the status
returned when the wait is entered in state `s` and the events `es` are handled
from then on; `none` while the caller stays blocked. -/
def connect_wifi (s : State) (es : List LinkEvent) : Option Int :=
  match xEventGroupWaitBits s (WIFI_SUCCESS ||| WIFI_FAILURE) es with
  | none => none
  | some bits => some (decode bits)

/-- Number of connect requests in a trace. -/
def connects (cs : List Call) : Nat :=
  cs.count Call.esp_wifi_connect

/-- The first outcome recorded in a trace: the argument of the first
`xEventGroupSetBits` call. -/
def firstRecorded : List Call → Option Nat
  | [] => none
  | Call.xEventGroupSetBits b :: _ => some b
  | Call.esp_wifi_connect :: cs => firstRecorded cs

/-- The calls issued by the step taken on event `e` in state `s`. -/
def issued (s : State) (e : LinkEvent) : List Call :=
  (step s e).calls.drop s.calls.length

/-- Each outcome bit is set exactly when the trace holds the call that sets it. -/
def BitsMatchTrace (s : State) : Prop :=
  (s.bits.testBit 0 = true ↔ Call.xEventGroupSetBits WIFI_SUCCESS ∈ s.calls)
    ∧ (s.bits.testBit 1 = true ↔ Call.xEventGroupSetBits WIFI_FAILURE ∈ s.calls)

/-! ## `connect_tcp_server` -/

/-- What the single `read(sock, readBuffer, sizeof(readBuffer)-1)` does: it
fails with a negative value and stores nothing, or it stores the bytes received
(none when the peer has closed) and returns their number. `error k` is the
negative return value `-1 - k`. -/
inductive ReadResult where
  | error (k : Nat)
  | bytes (data : List Nat)
  deriving DecidableEq, Repr

/-- What the socket layer answers to `connect_tcp_server`: the values returned
by `socket` and by `connect`, and the result of the read. -/
structure Net where
  sock : Int
  conn : Int
  rd : ReadResult
  deriving DecidableEq, Repr

/-- The calls and log lines of `connect_tcp_server`, in order. -/
inductive TcpCall where
  | socket
  | connect
  | close
  | read
  | putchar (c : Nat)
  | logE_failed_to_create_socket
  | logE_failed_to_connect
  | logI_connected_to_TCP_server
  | logI_connected
  deriving DecidableEq, Repr

/-- The call `bzero(readBuffer, sizeof(readBuffer))` on `char readBuffer[1024]`. -/
def bzero (n : Nat) : List Nat :=
  List.replicate n 0

/-- The C `read` with a byte count: at most `count` bytes are stored at the
start of the buffer, the rest of the buffer is left as it was; the value
returned is the number of bytes stored, or a negative value on error. -/
def read (rd : ReadResult) (buf : List Nat) (count : Nat) : Int × List Nat :=
  match rd with
  | ReadResult.error k => (-1 - (k : Int), buf)
  | ReadResult.bytes data =>
    let stored := data.take count
    ((stored.length : Int), stored ++ buf.drop stored.length)

/-- The C library `strcmp` on byte arrays: the first differing byte decides,
and a zero byte ends both strings. The end of the array stands for the
terminator. The source spells the call `strcomp`, a name that neither the
repository nor the C library declares; it is read as `strcmp`. -/
def strcomp : List Nat → List Nat → Int
  | a :: as, b :: bs =>
    if a ≠ b then (a : Int) - (b : Int) else if a = 0 then 0 else strcomp as bs
  | a :: _, [] => (a : Int)
  | [], b :: _ => -(b : Int)
  | [], [] => 0

/-- The string literal `"HELLO"`, with its terminator. -/
def HELLO_literal : List Nat := [72, 69, 76, 76, 79, 0]

/-- The five bytes `H`, `E`, `L`, `L`, `O`. -/
def HELLO : List Nat := [72, 69, 76, 76, 79]

/-- The seven bytes of `GOODBYE`. -/
def GOODBYE : List Nat := [71, 79, 79, 68, 66, 89, 69]

/-- The contents of `readBuffer` after `bzero` and the read (lines 183-184). -/
def readBuffer (rd : ReadResult) : List Nat :=
  (read rd (bzero 1024) (1024 - 1)).2

/-- The validation check `strcomp(readBuffer, "HELLO") == 0` (line 189). -/
def validated (rd : ReadResult) : Bool :=
  decide (strcomp (readBuffer rd) HELLO_literal = 0)

/-- The function `connect_tcp_server` (lines 161-194): the value returned and the trace of
calls and log lines. -/
def connect_tcp_server (net : Net) : Int × List TcpCall :=
  if net.sock < 0 then
    ((TCP_FAILURE : Int), [TcpCall.socket, TcpCall.logE_failed_to_create_socket])
  else if net.conn ≠ 0 then
    ((TCP_FAILURE : Int),
      [TcpCall.socket, TcpCall.connect, TcpCall.logE_failed_to_connect, TcpCall.close])
  else
    let res := read net.rd (bzero 1024) (1024 - 1)
    let r := res.1
    let buf := res.2
    let echo := (buf.take r.toNat).map TcpCall.putchar
    let hello := if strcomp buf HELLO_literal = 0 then [TcpCall.logI_connected] else []
    ((TCP_SUCCESS : Int),
      [TcpCall.socket, TcpCall.connect, TcpCall.logI_connected_to_TCP_server, TcpCall.read]
        ++ echo ++ hello)

/-- The bytes of a C string: everything before the first zero byte. -/
def cstr (l : List Nat) : List Nat :=
  l.takeWhile (fun c => c ≠ 0)

/-! ## Bit arithmetic on the event bits -/

theorem testBit_two (i : Nat) : Nat.testBit 2 i = decide (1 = i) := by
  have h := @Nat.testBit_two_pow 1 i
  simpa using h

theorem and_one_eq (b : Nat) : b &&& 1 = if b.testBit 0 then 1 else 0 := by
  rw [Nat.and_one_is_mod, Nat.testBit_zero]
  by_cases h : b % 2 = 1
  · simp [h]
  · simp [h]; omega

theorem and_two_eq (b : Nat) : b &&& 2 = if b.testBit 1 then 2 else 0 := by
  apply Nat.eq_of_testBit_eq
  intro i
  rw [Nat.testBit_and, testBit_two]
  by_cases hi : 1 = i
  · subst hi
    cases h : b.testBit 1 <;> simp [testBit_two]
  · cases h : b.testBit 1 <;> simp [hi, testBit_two]

theorem and_three_eq_zero (b : Nat) :
    b &&& 3 = 0 ↔ b.testBit 0 = false ∧ b.testBit 1 = false := by
  have h : b &&& 3 = b % 4 := by
    have := Nat.and_pow_two_sub_one_eq_mod b 2
    simpa using this
  rw [h, Nat.testBit_zero, Nat.testBit_succ, Nat.testBit_zero]
  simp
  omega

theorem success_bit_iff (b : Nat) : b &&& WIFI_SUCCESS ≠ 0 ↔ b.testBit 0 = true := by
  show b &&& 1 ≠ 0 ↔ _
  rw [and_one_eq]
  cases b.testBit 0 <;> simp

theorem failure_bit_iff (b : Nat) : b &&& WIFI_FAILURE ≠ 0 ↔ b.testBit 1 = true := by
  show b &&& 2 ≠ 0 ↔ _
  rw [and_two_eq]
  cases b.testBit 1 <;> simp

theorem decode_eq (b : Nat) :
    decode b = if b.testBit 0 = true then (WIFI_SUCCESS : Int) else (WIFI_FAILURE : Int) := by
  unfold decode
  by_cases h : b.testBit 0 = true
  · rw [if_pos ((success_bit_iff b).2 h), if_pos h]
  · rw [if_neg (fun h1 => h ((success_bit_iff b).1 h1)), if_neg h]
    split <;> rfl

/-! ## The handlers, event by event -/

theorem step_Started (s : State) :
    step s LinkEvent.Started = ⟨s.retry, s.bits, s.calls ++ [Call.esp_wifi_connect]⟩ := by
  rfl

theorem step_Disconnected_lt (s : State) (h : s.retry < 10) :
    step s LinkEvent.Disconnected
      = ⟨s.retry + 1, s.bits, s.calls ++ [Call.esp_wifi_connect]⟩ := by
  have h2 : s.retry < MAX_FAILURES := h
  simp [step, esp_event_post, wifi_event_handler, LinkEvent.base, LinkEvent.id,
    WIFI_EVENT_STA_START, WIFI_EVENT_STA_DISCONNECTED, h2, esp_wifi_connect]

theorem step_Disconnected_ge (s : State) (h : 10 ≤ s.retry) :
    step s LinkEvent.Disconnected
      = ⟨s.retry, s.bits ||| WIFI_FAILURE,
          s.calls ++ [Call.xEventGroupSetBits WIFI_FAILURE]⟩ := by
  have h2 : ¬ s.retry < MAX_FAILURES := not_lt.mpr h
  simp [step, esp_event_post, wifi_event_handler, LinkEvent.base, LinkEvent.id,
    WIFI_EVENT_STA_START, WIFI_EVENT_STA_DISCONNECTED, h2, xEventGroupSetBits]

theorem step_GotAddress (s : State) :
    step s LinkEvent.GotAddress
      = ⟨0, s.bits ||| WIFI_SUCCESS, s.calls ++ [Call.xEventGroupSetBits WIFI_SUCCESS]⟩ := by
  rfl

theorem run_nil (s : State) : run s [] = s := rfl

theorem run_cons (s : State) (e : LinkEvent) (es : List LinkEvent) :
    run s (e :: es) = run (step s e) es := rfl

theorem run_append (s : State) (es fs : List LinkEvent) :
    run s (es ++ fs) = run (run s es) fs := by
  simp [run, List.foldl_append]

theorem run_snoc (s : State) (es : List LinkEvent) (e : LinkEvent) :
    run s (es ++ [e]) = step (run s es) e := by
  rw [run_append]; rfl

theorem issued_Started (s : State) :
    issued s LinkEvent.Started = [Call.esp_wifi_connect] := by
  simp [issued, step_Started]

theorem issued_Disconnected_lt (s : State) (h : s.retry < 10) :
    issued s LinkEvent.Disconnected = [Call.esp_wifi_connect] := by
  simp [issued, step_Disconnected_lt s h]

theorem issued_Disconnected_ge (s : State) (h : 10 ≤ s.retry) :
    issued s LinkEvent.Disconnected = [Call.xEventGroupSetBits WIFI_FAILURE] := by
  simp [issued, step_Disconnected_ge s h]

theorem issued_GotAddress (s : State) :
    issued s LinkEvent.GotAddress = [Call.xEventGroupSetBits WIFI_SUCCESS] := by
  simp [issued, step_GotAddress]

theorem retry_bounds_step (s : State) (e : LinkEvent) (h : 0 ≤ s.retry ∧ s.retry ≤ 10) :
    0 ≤ (step s e).retry ∧ (step s e).retry ≤ 10 := by
  cases e with
  | Started => rw [step_Started]; exact h
  | Disconnected =>
    by_cases hlt : s.retry < 10
    · rw [step_Disconnected_lt s hlt]
      show 0 ≤ s.retry + 1 ∧ s.retry + 1 ≤ 10
      omega
    · rw [step_Disconnected_ge s (not_lt.mp hlt)]; exact h
  | GotAddress =>
    rw [step_GotAddress]
    show (0 : Int) ≤ 0 ∧ (0 : Int) ≤ 10
    omega

theorem retry_bounds_run (es : List LinkEvent) (s : State)
    (h : 0 ≤ s.retry ∧ s.retry ≤ 10) :
    0 ≤ (run s es).retry ∧ (run s es).retry ≤ 10 := by
  induction es generalizing s with
  | nil => exact h
  | cons e es ih => rw [run_cons]; exact ih _ (retry_bounds_step s e h)

theorem testBit0_step (s : State) (e : LinkEvent) :
    (step s e).bits.testBit 0 = (s.bits.testBit 0 || decide (e = LinkEvent.GotAddress)) := by
  cases e with
  | Started => simp [step_Started]
  | Disconnected =>
    by_cases hlt : s.retry < 10
    · simp [step_Disconnected_lt s hlt]
    · rw [step_Disconnected_ge s (not_lt.mp hlt)]
      show (s.bits ||| 2).testBit 0 = _
      rw [Nat.testBit_or, testBit_two]
      simp
  | GotAddress =>
    rw [step_GotAddress]
    show (s.bits ||| 1).testBit 0 = _
    rw [Nat.testBit_or]
    simp

theorem testBit0_run (es : List LinkEvent) (s : State) :
    (run s es).bits.testBit 0
      = (s.bits.testBit 0 || decide (LinkEvent.GotAddress ∈ es)) := by
  induction es generalizing s with
  | nil => simp [run_nil]
  | cons e es ih =>
    rw [run_cons, ih, testBit0_step]
    cases s.bits.testBit 0 <;> cases e <;> simp

theorem testBit1_step (s : State) (e : LinkEvent) :
    (step s e).bits.testBit 1
      = (s.bits.testBit 1 || decide (e = LinkEvent.Disconnected ∧ 10 ≤ s.retry)) := by
  cases e with
  | Started => simp [step_Started]
  | Disconnected =>
    by_cases hlt : s.retry < 10
    · have : ¬ (10 ≤ s.retry) := not_le.mpr hlt
      simp [step_Disconnected_lt s hlt, this]
    · rw [step_Disconnected_ge s (not_lt.mp hlt)]
      show (s.bits ||| 2).testBit 1 = _
      rw [Nat.testBit_or, testBit_two]
      simp [not_lt.mp hlt]
  | GotAddress =>
    rw [step_GotAddress]
    show (s.bits ||| 1).testBit 1 = _
    have h11 : Nat.testBit 1 1 = false := by decide
    rw [Nat.testBit_or, h11]
    simp

/-- Closed form of `n` consecutive `Disconnected` events from `retry = 0`. -/
theorem run_Disconnected (b : Nat) (cs : List Call) (n : Nat) :
    run ⟨0, b, cs⟩ (List.replicate n LinkEvent.Disconnected)
      = ⟨((min n 10 : Nat) : Int), if n ≤ 10 then b else b ||| WIFI_FAILURE,
          cs ++ List.replicate (min n 10) Call.esp_wifi_connect
             ++ List.replicate (n - 10) (Call.xEventGroupSetBits WIFI_FAILURE)⟩ := by
  induction n with
  | zero => simp [run_nil]
  | succ n ih =>
    rw [List.replicate_succ', run_snoc, ih]
    by_cases hlt : n < 10
    · have h1 : (((min n 10 : Nat) : Int)) < 10 := by omega
      rw [step_Disconnected_lt _ h1]
      have e1 : min n 10 = n := by omega
      have e2 : min (n + 1) 10 = n + 1 := by omega
      have e3 : n - 10 = 0 := by omega
      have e4 : n + 1 - 10 = 0 := by omega
      have e5 : n ≤ 10 := by omega
      have e6 : n + 1 ≤ 10 := by omega
      simp only [e1, e2, e3, e4, e5, e6, if_true, List.replicate_zero, List.append_nil,
        List.replicate_succ', List.append_assoc, Nat.cast_add, Nat.cast_one]
    · have h1 : (10 : Int) ≤ ((min n 10 : Nat) : Int) := by omega
      rw [step_Disconnected_ge _ h1]
      have e1 : min n 10 = 10 := by omega
      have e2 : min (n + 1) 10 = 10 := by omega
      have e4 : n + 1 - 10 = (n - 10) + 1 := by omega
      have e6 : ¬ (n + 1 ≤ 10) := by omega
      simp only [e1, e2, e4, e6, if_false, List.replicate_succ', List.append_assoc]
      by_cases e5 : n ≤ 10
      · simp only [e5, if_true]
      · simp only [e5, if_false, Nat.or_assoc, Nat.or_self]

theorem connects_append (cs ds : List Call) :
    connects (cs ++ ds) = connects cs + connects ds := by
  simp [connects]

theorem connects_replicate_connect (n : Nat) :
    connects (List.replicate n Call.esp_wifi_connect) = n := by
  simp [connects]

theorem connects_replicate_setBits (n b : Nat) :
    connects (List.replicate n (Call.xEventGroupSetBits b)) = 0 := by
  simp [connects, List.count_eq_zero, List.mem_replicate]

/-! ## The comparison in `connect_tcp_server` -/

theorem cstr_nil : cstr [] = [] := rfl

theorem cstr_cons_zero (l : List Nat) : cstr (0 :: l) = [] := by
  simp [cstr]

theorem cstr_cons_ne (x : Nat) (l : List Nat) (h : x ≠ 0) : cstr (x :: l) = x :: cstr l := by
  simp [cstr, h]

theorem strcomp_eq_zero_iff (a b : List Nat) : strcomp a b = 0 ↔ cstr a = cstr b := by
  induction a generalizing b with
  | nil =>
    cases b with
    | nil => simp [strcomp]
    | cons y ys =>
      by_cases hy : y = 0
      · subst hy; simp [strcomp, cstr_nil, cstr_cons_zero]
      · simp [strcomp, cstr_nil, cstr_cons_ne y ys hy, hy]
  | cons x xs ih =>
    cases b with
    | nil =>
      by_cases hx : x = 0
      · subst hx; simp [strcomp, cstr_nil, cstr_cons_zero]
      · simp [strcomp, cstr_nil, cstr_cons_ne x xs hx, hx]
    | cons y ys =>
      by_cases hxy : x = y
      · subst hxy
        by_cases hx : x = 0
        · subst hx; simp [strcomp, cstr_cons_zero]
        · simp [strcomp, cstr_cons_ne x _ hx, hx, ih ys]
      · have hne : (x : Int) - (y : Int) ≠ 0 := by omega
        by_cases hx : x = 0
        · subst hx
          have hy : y ≠ 0 := fun h => hxy h.symm
          simp [strcomp, hxy, hy, cstr_cons_zero, cstr_cons_ne y ys hy]
        · by_cases hy : y = 0
          · subst hy
            simp [strcomp, hxy, hne, cstr_cons_zero, cstr_cons_ne x xs hx]
          · simp [strcomp, hxy, hne, cstr_cons_ne x xs hx, cstr_cons_ne y ys hy]

theorem cstr_append_zeros (p : List Nat) (k : Nat) :
    cstr (p ++ List.replicate k 0) = cstr p := by
  induction p with
  | nil =>
    cases k with
    | zero => rfl
    | succ k => rw [List.nil_append, List.replicate_succ, cstr_cons_zero, cstr_nil]
  | cons x xs ih =>
    by_cases hx : x = 0
    · subst hx; rw [List.cons_append, cstr_cons_zero, cstr_cons_zero]
    · rw [List.cons_append, cstr_cons_ne x _ hx, cstr_cons_ne x _ hx, ih]

theorem cstr_of_no_zero (p : List Nat) (h : ∀ c ∈ p, c ≠ 0) : cstr p = p := by
  induction p with
  | nil => rfl
  | cons x xs ih =>
    have hx : x ≠ 0 := h x (List.mem_cons_self x xs)
    rw [cstr_cons_ne x xs hx, ih (fun c hc => h c (List.mem_cons_of_mem x hc))]

theorem read_bytes_zeroed (p : List Nat) (n count : Nat) :
    (read (ReadResult.bytes p) (List.replicate n 0) count).2
      = p.take count ++ List.replicate (n - (p.take count).length) 0 := by
  simp only [read, List.drop_replicate]

theorem readBuffer_bytes (p : List Nat) :
    readBuffer (ReadResult.bytes p)
      = p.take 1023 ++ List.replicate (1024 - (p.take 1023).length) 0 :=
  read_bytes_zeroed p 1024 1023

theorem readBuffer_error (k : Nat) :
    readBuffer (ReadResult.error k) = List.replicate 1024 0 := rfl

theorem validated_iff (rd : ReadResult) :
    validated rd = true ↔ cstr (readBuffer rd) = HELLO := by
  unfold validated
  rw [decide_eq_true_iff, strcomp_eq_zero_iff]
  have : cstr HELLO_literal = HELLO := by decide
  rw [this]

theorem validated_bytes_iff (p : List Nat) (h : p.length ≤ 1023) :
    validated (ReadResult.bytes p) = true ↔ cstr p = HELLO := by
  rw [validated_iff, readBuffer_bytes, cstr_append_zeros, List.take_of_length_le h]

/-! ## The trace and the event bits -/

theorem step_calls (s : State) (e : LinkEvent) :
    (step s e).calls = s.calls ++ issued s e := by
  cases e with
  | Started => rw [issued_Started, step_Started]
  | Disconnected =>
    by_cases hlt : s.retry < 10
    · rw [issued_Disconnected_lt s hlt, step_Disconnected_lt s hlt]
    · rw [issued_Disconnected_ge s (not_lt.mp hlt), step_Disconnected_ge s (not_lt.mp hlt)]
  | GotAddress => rw [issued_GotAddress, step_GotAddress]

theorem success_call_issued_iff (s : State) (e : LinkEvent) :
    Call.xEventGroupSetBits WIFI_SUCCESS ∈ issued s e ↔ e = LinkEvent.GotAddress := by
  cases e with
  | Started => simp [issued_Started]
  | Disconnected =>
    by_cases hlt : s.retry < 10
    · simp [issued_Disconnected_lt s hlt]
    · have : WIFI_SUCCESS ≠ WIFI_FAILURE := by decide
      simp [issued_Disconnected_ge s (not_lt.mp hlt), this]
  | GotAddress => simp [issued_GotAddress]

theorem failure_call_issued_iff (s : State) (e : LinkEvent) :
    Call.xEventGroupSetBits WIFI_FAILURE ∈ issued s e
      ↔ e = LinkEvent.Disconnected ∧ 10 ≤ s.retry := by
  cases e with
  | Started => simp [issued_Started]
  | Disconnected =>
    by_cases hlt : s.retry < 10
    · have : ¬ (10 ≤ s.retry) := not_le.mpr hlt
      simp [issued_Disconnected_lt s hlt, this]
    · simp [issued_Disconnected_ge s (not_lt.mp hlt), not_lt.mp hlt]
  | GotAddress =>
    have : WIFI_FAILURE ≠ WIFI_SUCCESS := by decide
    simp [issued_GotAddress, this]

theorem bitsMatchTrace_init : BitsMatchTrace init := by
  constructor <;> simp [init]

theorem bitsMatchTrace_step (s : State) (e : LinkEvent) (h : BitsMatchTrace s) :
    BitsMatchTrace (step s e) := by
  obtain ⟨h0, h1⟩ := h
  constructor
  · rw [testBit0_step, step_calls, List.mem_append, success_call_issued_iff, ← h0]
    simp
  · rw [testBit1_step, step_calls, List.mem_append, failure_call_issued_iff, ← h1]
    simp

theorem bitsMatchTrace_run (es : List LinkEvent) (s : State) (h : BitsMatchTrace s) :
    BitsMatchTrace (run s es) := by
  induction es generalizing s with
  | nil => exact h
  | cons e es ih => rw [run_cons]; exact ih _ (bitsMatchTrace_step s e h)

theorem mem_of_firstRecorded (cs : List Call) (b : Nat) (h : firstRecorded cs = some b) :
    Call.xEventGroupSetBits b ∈ cs := by
  induction cs with
  | nil => simp [firstRecorded] at h
  | cons c cs ih =>
    cases c with
    | esp_wifi_connect =>
      simp only [firstRecorded] at h
      exact List.mem_cons_of_mem _ (ih h)
    | xEventGroupSetBits b1 =>
      simp only [firstRecorded, Option.some.injEq] at h
      subst h
      exact List.mem_cons_self _ _

theorem testBit1_run_mono (es : List LinkEvent) (s : State) (h : s.bits.testBit 1 = true) :
    (run s es).bits.testBit 1 = true := by
  induction es generalizing s with
  | nil => exact h
  | cons e es ih =>
    rw [run_cons]
    apply ih
    rw [testBit1_step, h]
    rfl

/-! ## The wait in `connect_wifi` -/

/-- An outcome bit is set in the event bits `b`. -/
theorem outcome_set_iff (b : Nat) :
    b &&& (WIFI_SUCCESS ||| WIFI_FAILURE) ≠ 0 ↔ (b.testBit 0 = true ∨ b.testBit 1 = true) := by
  show b &&& 3 ≠ 0 ↔ _
  rw [ne_eq, and_three_eq_zero]
  cases b.testBit 0 <;> cases b.testBit 1 <;> simp

theorem wait_of_set (s : State) (w : Nat) (es : List LinkEvent) (h : s.bits &&& w ≠ 0) :
    xEventGroupWaitBits s w es = some s.bits := by
  cases es with
  | nil => simp only [xEventGroupWaitBits, if_pos h]
  | cons e es => simp only [xEventGroupWaitBits, if_pos h]

theorem wait_nil_of_clear (s : State) (w : Nat) (h : ¬ s.bits &&& w ≠ 0) :
    xEventGroupWaitBits s w [] = none := by
  simp only [xEventGroupWaitBits, if_neg h]

theorem wait_cons_of_clear (s : State) (w : Nat) (e : LinkEvent) (es : List LinkEvent)
    (h : ¬ s.bits &&& w ≠ 0) :
    xEventGroupWaitBits s w (e :: es) = xEventGroupWaitBits (step s e) w es := by
  simp only [xEventGroupWaitBits, if_neg h]

theorem connect_wifi_of_set (s : State) (es : List LinkEvent)
    (h : s.bits.testBit 0 = true ∨ s.bits.testBit 1 = true) :
    connect_wifi s es
      = some (if s.bits.testBit 0 = true then (WIFI_SUCCESS : Int) else (WIFI_FAILURE : Int)) := by
  unfold connect_wifi
  rw [wait_of_set s _ es ((outcome_set_iff _).2 h)]
  show some (decode s.bits) = _
  rw [decode_eq]

theorem connect_wifi_nil_of_clear (s : State)
    (h0 : s.bits.testBit 0 = false) (h1 : s.bits.testBit 1 = false) :
    connect_wifi s [] = none := by
  have hc : ¬ s.bits &&& (WIFI_SUCCESS ||| WIFI_FAILURE) ≠ 0 := by
    rw [outcome_set_iff, h0, h1]
    simp
  unfold connect_wifi
  rw [wait_nil_of_clear s _ hc]

theorem connect_wifi_cons_of_clear (s : State) (e : LinkEvent) (es : List LinkEvent)
    (h0 : s.bits.testBit 0 = false) (h1 : s.bits.testBit 1 = false) :
    connect_wifi s (e :: es) = connect_wifi (step s e) es := by
  have hc : ¬ s.bits &&& (WIFI_SUCCESS ||| WIFI_FAILURE) ≠ 0 := by
    rw [outcome_set_iff, h0, h1]
    simp
  unfold connect_wifi
  rw [wait_cons_of_clear s _ e es hc]

/-- Events handled after the caller has been woken do not change what
`connect_wifi` returns. -/
theorem connect_wifi_append_of_some (es fs : List LinkEvent) (s : State) (v : Int)
    (h : connect_wifi s es = some v) : connect_wifi s (es ++ fs) = some v := by
  induction es generalizing s with
  | nil =>
    by_cases hs : s.bits.testBit 0 = true ∨ s.bits.testBit 1 = true
    · rw [connect_wifi_of_set s _ hs] at h
      rw [connect_wifi_of_set s _ hs]
      exact h
    · have h0 : s.bits.testBit 0 = false := by
        cases hb : s.bits.testBit 0
        · rfl
        · exact absurd (Or.inl hb) hs
      have h1 : s.bits.testBit 1 = false := by
        cases hb : s.bits.testBit 1
        · rfl
        · exact absurd (Or.inr hb) hs
      rw [connect_wifi_nil_of_clear s h0 h1] at h
      exact absurd h (by simp)
  | cons e es ih =>
    by_cases hs : s.bits.testBit 0 = true ∨ s.bits.testBit 1 = true
    · rw [connect_wifi_of_set s _ hs] at h
      rw [connect_wifi_of_set s _ hs]
      exact h
    · have h0 : s.bits.testBit 0 = false := by
        cases hb : s.bits.testBit 0
        · rfl
        · exact absurd (Or.inl hb) hs
      have h1 : s.bits.testBit 1 = false := by
        cases hb : s.bits.testBit 1
        · rfl
        · exact absurd (Or.inr hb) hs
      rw [connect_wifi_cons_of_clear s e es h0 h1] at h
      rw [List.cons_append, connect_wifi_cons_of_clear s e _ h0 h1]
      exact ih _ h

theorem testBits_of_bits_zero (s : State) (h : s.bits = 0) :
    s.bits.testBit 0 = false ∧ s.bits.testBit 1 = false := by
  rw [h]
  exact ⟨by decide, by decide⟩

theorem run_calls_prefix (es : List LinkEvent) (s : State) :
    ∃ ds, (run s es).calls = s.calls ++ ds := by
  induction es generalizing s with
  | nil => exact ⟨[], by simp [run_nil]⟩
  | cons e es ih =>
    obtain ⟨ds, hds⟩ := ih (step s e)
    refine ⟨issued s e ++ ds, ?_⟩
    rw [run_cons, hds, step_calls, List.append_assoc]

theorem firstRecorded_append_of_none (cs ds : List Call) (h : firstRecorded cs = none) :
    firstRecorded (cs ++ ds) = firstRecorded ds := by
  induction cs with
  | nil => rfl
  | cons c cs ih =>
    cases c with
    | esp_wifi_connect =>
      simp only [firstRecorded] at h
      simp only [List.cons_append, firstRecorded]
      exact ih h
    | xEventGroupSetBits b => simp [firstRecorded] at h

theorem firstRecorded_append_of_some (cs ds : List Call) (b : Nat)
    (h : firstRecorded cs = some b) : firstRecorded (cs ++ ds) = some b := by
  induction cs with
  | nil => simp [firstRecorded] at h
  | cons c cs ih =>
    cases c with
    | esp_wifi_connect =>
      simp only [firstRecorded] at h
      simp only [List.cons_append, firstRecorded]
      exact ih h
    | xEventGroupSetBits b1 =>
      simp only [firstRecorded] at h
      simp only [List.cons_append, firstRecorded]
      exact h

theorem not_mem_of_firstRecorded_none (cs : List Call) (b : Nat)
    (h : firstRecorded cs = none) : Call.xEventGroupSetBits b ∉ cs := by
  induction cs with
  | nil => simp
  | cons c cs ih =>
    cases c with
    | esp_wifi_connect =>
      simp only [firstRecorded] at h
      simp [ih h]
    | xEventGroupSetBits b1 => simp [firstRecorded] at h

/-- A caller that enters the wait before any outcome is recorded is handed the
first outcome recorded. -/
theorem connect_wifi_eq_firstRecorded (es : List LinkEvent) (s : State)
    (h0 : s.bits.testBit 0 = false) (h1 : s.bits.testBit 1 = false)
    (hf : firstRecorded s.calls = none) :
    connect_wifi s es = (firstRecorded (run s es).calls).map (fun b => (b : Int)) := by
  induction es generalizing s with
  | nil =>
    rw [connect_wifi_nil_of_clear s h0 h1, run_nil, hf]
    rfl
  | cons e es ih =>
    rw [connect_wifi_cons_of_clear s e es h0 h1, run_cons]
    have hsame : ∀ t : State, t.bits = s.bits → t.calls = s.calls ++ [Call.esp_wifi_connect] →
        connect_wifi t es = (firstRecorded (run t es).calls).map (fun b => (b : Int)) := by
      intro t hb hc
      apply ih t
      · rw [hb]; exact h0
      · rw [hb]; exact h1
      · rw [hc, firstRecorded_append_of_none _ _ hf]
        rfl
    have hset : ∀ (t : State) (b : Nat), t.calls = s.calls ++ [Call.xEventGroupSetBits b] →
        firstRecorded (run t es).calls = some b := by
      intro t b hc
      obtain ⟨ds, hds⟩ := run_calls_prefix es t
      rw [hds]
      apply firstRecorded_append_of_some
      rw [hc, firstRecorded_append_of_none _ _ hf]
      rfl
    cases e with
    | Started => exact hsame _ (by rw [step_Started]) (by rw [step_Started])
    | Disconnected =>
      by_cases hlt : s.retry < 10
      · exact hsame _ (by rw [step_Disconnected_lt s hlt]) (by rw [step_Disconnected_lt s hlt])
      · have hge := not_lt.mp hlt
        have hb0 : (step s LinkEvent.Disconnected).bits.testBit 0 = false := by
          rw [testBit0_step, h0]
          rfl
        have hb1 : (step s LinkEvent.Disconnected).bits.testBit 1 = true := by
          rw [testBit1_step, h1]
          simp [hge]
        rw [connect_wifi_of_set _ _ (Or.inr hb1), hb0,
          hset _ WIFI_FAILURE (by rw [step_Disconnected_ge s hge])]
        rfl
    | GotAddress =>
      have hb0 : (step s LinkEvent.GotAddress).bits.testBit 0 = true := by
        rw [testBit0_step, h0]
        rfl
      rw [connect_wifi_of_set _ _ (Or.inl hb0), if_pos hb0,
        hset _ WIFI_SUCCESS (by rw [step_GotAddress])]
      rfl

theorem connect_wifi_disconnects_then_address (n : Nat) (s : State)
    (hb : s.bits = 0) (h : s.retry + n < 10) :
    connect_wifi s (List.replicate n LinkEvent.Disconnected ++ [LinkEvent.GotAddress])
      = some (WIFI_SUCCESS : Int) := by
  have hc := testBits_of_bits_zero s hb
  induction n generalizing s with
  | zero =>
    rw [List.replicate_zero, List.nil_append, connect_wifi_cons_of_clear s _ _ hc.1 hc.2]
    have hb0 : (step s LinkEvent.GotAddress).bits.testBit 0 = true := by
      rw [testBit0_step, hc.1]
      rfl
    rw [connect_wifi_of_set _ _ (Or.inl hb0), if_pos hb0]
  | succ n ih =>
    have hlt : s.retry < 10 := by omega
    rw [List.replicate_succ, List.cons_append, connect_wifi_cons_of_clear s _ _ hc.1 hc.2]
    have hs := step_Disconnected_lt s hlt
    apply ih
    · rw [hs]; exact hb
    · rw [hs]
      show s.retry + 1 + (n : Int) < 10
      push_cast at h
      omega
    · rw [hs]; exact hc

theorem calls_of_run (es : List LinkEvent) (s : State)
    (h : ∀ c ∈ s.calls, c = Call.esp_wifi_connect ∨ c = Call.xEventGroupSetBits WIFI_SUCCESS
      ∨ c = Call.xEventGroupSetBits WIFI_FAILURE) :
    ∀ c ∈ (run s es).calls, c = Call.esp_wifi_connect
      ∨ c = Call.xEventGroupSetBits WIFI_SUCCESS ∨ c = Call.xEventGroupSetBits WIFI_FAILURE := by
  induction es generalizing s with
  | nil => exact h
  | cons e es ih =>
    rw [run_cons]
    apply ih
    intro c hc
    rw [step_calls, List.mem_append] at hc
    rcases hc with hc | hc
    · exact h c hc
    · cases e with
      | Started =>
        rw [issued_Started, List.mem_singleton] at hc
        exact Or.inl hc
      | Disconnected =>
        by_cases hlt : s.retry < 10
        · rw [issued_Disconnected_lt s hlt, List.mem_singleton] at hc
          exact Or.inl hc
        · rw [issued_Disconnected_ge s (not_lt.mp hlt), List.mem_singleton] at hc
          exact Or.inr (Or.inr hc)
      | GotAddress =>
        rw [issued_GotAddress, List.mem_singleton] at hc
        exact Or.inr (Or.inl hc)

/-- From the initial state, an outcome has been recorded exactly when an
outcome bit is set. -/
theorem outcome_bit_of_recorded (es : List LinkEvent)
    (h : firstRecorded (run init es).calls ≠ none) :
    (run init es).bits.testBit 0 = true ∨ (run init es).bits.testBit 1 = true := by
  have hinv := bitsMatchTrace_run es init bitsMatchTrace_init
  cases hf : firstRecorded (run init es).calls with
  | none => exact absurd hf h
  | some b =>
    have hm := mem_of_firstRecorded _ _ hf
    have hc := calls_of_run es init (by simp [init]) _ hm
    rcases hc with hc | hc | hc
    · exact Call.noConfusion hc
    · rw [hc] at hm
      exact Or.inl (hinv.1.2 hm)
    · rw [hc] at hm
      exact Or.inr (hinv.2.2 hm)

theorem no_outcome_bit_of_none_recorded (es : List LinkEvent)
    (h : firstRecorded (run init es).calls = none) :
    (run init es).bits.testBit 0 = false ∧ (run init es).bits.testBit 1 = false := by
  have hinv := bitsMatchTrace_run es init bitsMatchTrace_init
  constructor
  · cases hb : (run init es).bits.testBit 0
    · rfl
    · exact absurd (hinv.1.1 hb) (not_mem_of_firstRecorded_none _ _ h)
  · cases hb : (run init es).bits.testBit 1
    · rfl
    · exact absurd (hinv.2.1 hb) (not_mem_of_firstRecorded_none _ _ h)

theorem run_init_Disconnected (n : Nat) :
    run init (List.replicate n LinkEvent.Disconnected)
      = ⟨((min n 10 : Nat) : Int), if n ≤ 10 then 0 else 0 ||| WIFI_FAILURE,
          [] ++ List.replicate (min n 10) Call.esp_wifi_connect
             ++ List.replicate (n - 10) (Call.xEventGroupSetBits WIFI_FAILURE)⟩ :=
  run_Disconnected 0 [] n

/-! ## The association controller -/

/-- C1: for every `k < MAX_FAILURES`, starting from `retry = 0` with no outcome
bit set, `k` `Disconnected` events followed by one `GotAddress` event make
`connect_wifi` return `WIFI_SUCCESS`, whether it entered the wait after `j ≤ k`
of the `Disconnected` events or after all the events; only the Success bit is
recorded and the retry counter is 0 afterwards. -/
theorem disconnects_then_address_succeeds (k : Nat) (hk : (k : Int) < MAX_FAILURES) :
    (∀ j : Nat, j ≤ k →
        connect_wifi (run init (List.replicate j LinkEvent.Disconnected))
            (List.replicate (k - j) LinkEvent.Disconnected ++ [LinkEvent.GotAddress])
          = some (WIFI_SUCCESS : Int))
      ∧ connect_wifi
          (run init (List.replicate k LinkEvent.Disconnected ++ [LinkEvent.GotAddress])) []
        = some (WIFI_SUCCESS : Int)
      ∧ (run init (List.replicate k LinkEvent.Disconnected ++ [LinkEvent.GotAddress])).retry = 0
      ∧ (run init (List.replicate k LinkEvent.Disconnected ++ [LinkEvent.GotAddress])).bits
          = WIFI_SUCCESS := by
  have hk10 : k < 10 := by
    unfold MAX_FAILURES at hk
    omega
  have hs : run init (List.replicate k LinkEvent.Disconnected ++ [LinkEvent.GotAddress])
      = ⟨0, 0 ||| WIFI_SUCCESS,
          ([] ++ List.replicate (min k 10) Call.esp_wifi_connect
            ++ List.replicate (k - 10) (Call.xEventGroupSetBits WIFI_FAILURE))
            ++ [Call.xEventGroupSetBits WIFI_SUCCESS]⟩ := by
    rw [run_snoc, run_init_Disconnected, step_GotAddress, if_pos (by omega)]
  refine ⟨?_, ?_, ?_, ?_⟩
  · intro j hj
    apply connect_wifi_disconnects_then_address
    · rw [run_init_Disconnected, if_pos (by omega)]
    · rw [run_init_Disconnected]
      show ((min j 10 : Nat) : Int) + ((k - j : Nat) : Int) < 10
      omega
  · rw [hs]
    have hb0 : (0 ||| WIFI_SUCCESS).testBit 0 = true := by decide
    exact (connect_wifi_of_set ⟨0, 0 ||| WIFI_SUCCESS, _⟩ [] (Or.inl hb0)).trans
      (by rw [if_pos hb0])
  · rw [hs]
  · rw [hs]
    rfl

/-- Witness of C1 at `k = 3`, with the wait entered after one event. -/
theorem disconnects_then_address_succeeds_witness :
    ((3 : Nat) : Int) < MAX_FAILURES
      ∧ connect_wifi (run init (List.replicate 1 LinkEvent.Disconnected))
          (List.replicate (3 - 1) LinkEvent.Disconnected ++ [LinkEvent.GotAddress])
        = some (WIFI_SUCCESS : Int) :=
  ⟨by decide, (disconnects_then_address_succeeds 3 (by decide)).1 1 (by decide)⟩

/-- C3: a `Disconnected` event handled with `retry = MAX_FAILURES - 1` issues
one connect request, sets `retry` to `MAX_FAILURES` and leaves the event bits
alone; the next `Disconnected` event issues no connect request, leaves `retry`
at `MAX_FAILURES` and sets the Failure bit. -/
theorem boundary_disconnect (s : State) (h : s.retry = MAX_FAILURES - 1) :
    issued s LinkEvent.Disconnected = [Call.esp_wifi_connect]
      ∧ (step s LinkEvent.Disconnected).retry = MAX_FAILURES
      ∧ (step s LinkEvent.Disconnected).bits = s.bits
      ∧ issued (step s LinkEvent.Disconnected) LinkEvent.Disconnected
          = [Call.xEventGroupSetBits WIFI_FAILURE]
      ∧ (step (step s LinkEvent.Disconnected) LinkEvent.Disconnected).retry = MAX_FAILURES
      ∧ (step (step s LinkEvent.Disconnected) LinkEvent.Disconnected).bits
          = s.bits ||| WIFI_FAILURE
      ∧ (step (step s LinkEvent.Disconnected) LinkEvent.Disconnected).bits
          &&& WIFI_FAILURE ≠ 0 := by
  have h9 : s.retry = 9 := by rw [h]; rfl
  have hlt : s.retry < 10 := by omega
  have h1 : step s LinkEvent.Disconnected
      = ⟨s.retry + 1, s.bits, s.calls ++ [Call.esp_wifi_connect]⟩ :=
    step_Disconnected_lt s hlt
  have hge : (10 : Int) ≤ (step s LinkEvent.Disconnected).retry := by
    rw [h1]
    show (10 : Int) ≤ s.retry + 1
    omega
  have h2 := step_Disconnected_ge (step s LinkEvent.Disconnected) hge
  refine ⟨issued_Disconnected_lt s hlt, ?_, ?_, issued_Disconnected_ge _ hge, ?_, ?_, ?_⟩
  · rw [h1]
    show s.retry + 1 = 10
    omega
  · rw [h1]
  · rw [h2, h1]
    show s.retry + 1 = 10
    omega
  · rw [h2, h1]
  · rw [h2, h1, failure_bit_iff]
    show (s.bits ||| 2).testBit 1 = true
    rw [Nat.testBit_or, testBit_two]
    simp

/-- Witness of C3 at the state with `retry = 9`, no bit set, empty trace. -/
theorem boundary_disconnect_witness :
    (⟨9, 0, []⟩ : State).retry = MAX_FAILURES - 1
      ∧ (step (step ⟨9, 0, []⟩ LinkEvent.Disconnected) LinkEvent.Disconnected).bits
          &&& WIFI_FAILURE ≠ 0 :=
  ⟨by decide, (boundary_disconnect ⟨9, 0, []⟩ (by decide)).2.2.2.2.2.2⟩

/-- C4: starting from any state with `retry = 0`, after every finite sequence
of `Started`, `Disconnected` and `GotAddress` events, `0 ≤ retry ≤ MAX_FAILURES`;
and a step that calls `xEventGroupSetBits` with the Failure bit, or that turns
the Failure bit from clear to set, is taken in a state where
`retry = MAX_FAILURES`. -/
theorem retry_bounded_and_failure_only_at_bound (s0 : State) (h0 : s0.retry = 0)
    (es : List LinkEvent) :
    0 ≤ (run s0 es).retry
      ∧ (run s0 es).retry ≤ MAX_FAILURES
      ∧ ∀ e : LinkEvent,
          (Call.xEventGroupSetBits WIFI_FAILURE ∈ issued (run s0 es) e
            ∨ ((run s0 es).bits &&& WIFI_FAILURE = 0
                ∧ (step (run s0 es) e).bits &&& WIFI_FAILURE ≠ 0))
          → (run s0 es).retry = MAX_FAILURES := by
  have hb : 0 ≤ (run s0 es).retry ∧ (run s0 es).retry ≤ 10 :=
    retry_bounds_run es s0 (by rw [h0]; decide)
  refine ⟨hb.1, hb.2, ?_⟩
  intro e he
  have hge : 10 ≤ (run s0 es).retry := by
    rcases he with he | ⟨hclear, hset⟩
    · exact ((failure_call_issued_iff _ e).1 he).2
    · rw [failure_bit_iff, testBit1_step] at hset
      have hc : (run s0 es).bits.testBit 1 = false := by
        cases hb1 : (run s0 es).bits.testBit 1
        · rfl
        · exact absurd hclear ((failure_bit_iff _).2 hb1)
      rw [hc] at hset
      simp at hset
      exact hset.2
  show (run s0 es).retry = 10
  omega

/-- Witness of C4: from the initial state, the 11th `Disconnected` event in a
row sets the Failure bit, in a state where `retry = MAX_FAILURES`. -/
theorem retry_bounded_and_failure_only_at_bound_witness :
    init.retry = 0
      ∧ (run init (List.replicate 10 LinkEvent.Disconnected)).retry = MAX_FAILURES :=
  ⟨rfl,
    (retry_bounded_and_failure_only_at_bound init rfl
      (List.replicate 10 LinkEvent.Disconnected)).2.2
      LinkEvent.Disconnected (Or.inl (by decide))⟩

/-- C5 as stated fails: when 11 `Disconnected` events and then a `GotAddress`
event are handled before `connect_wifi` enters the wait, the first outcome
recorded is Failure, both outcome bits are set on entry, and `connect_wifi`
returns `WIFI_SUCCESS`. -/
theorem late_wait_returns_success_after_failure :
    firstRecorded
          (run init (List.replicate 11 LinkEvent.Disconnected ++ [LinkEvent.GotAddress])).calls
        = some WIFI_FAILURE
      ∧ (run init (List.replicate 11 LinkEvent.Disconnected ++ [LinkEvent.GotAddress])).bits
        = WIFI_SUCCESS ||| WIFI_FAILURE
      ∧ connect_wifi
          (run init (List.replicate 11 LinkEvent.Disconnected ++ [LinkEvent.GotAddress])) []
        = some (WIFI_SUCCESS : Int) := by
  decide

/-- C5, amended: first finalization wins for a caller that is already waiting.
When no outcome has been recorded at the moment `connect_wifi` enters the wait
(after the events `pre`), the outcome it returns is the first outcome recorded
by the handlers; whatever it returns, events handled afterwards do not change
it; in particular 11 `Disconnected` events and then a `GotAddress` event, all
handled while it waits, make it return `WIFI_FAILURE`. When an outcome has
already been recorded on entry, `connect_wifi` decodes the bits present then:
`WIFI_SUCCESS` if a `GotAddress` event was handled before, `WIFI_FAILURE`
otherwise. -/
theorem first_finalization_wins_while_waiting (pre post more : List LinkEvent) :
    (firstRecorded (run init pre).calls = none →
        connect_wifi (run init pre) post
          = (firstRecorded (run init (pre ++ post)).calls).map (fun b => (b : Int)))
      ∧ (∀ v : Int, connect_wifi (run init pre) post = some v →
          connect_wifi (run init pre) (post ++ more) = some v)
      ∧ connect_wifi init (List.replicate 11 LinkEvent.Disconnected ++ [LinkEvent.GotAddress])
          = some (WIFI_FAILURE : Int)
      ∧ (firstRecorded (run init pre).calls ≠ none →
          connect_wifi (run init pre) post
            = some (if LinkEvent.GotAddress ∈ pre then (WIFI_SUCCESS : Int)
                else (WIFI_FAILURE : Int))) := by
  refine ⟨?_, ?_, by decide, ?_⟩
  · intro h
    have hc := no_outcome_bit_of_none_recorded pre h
    rw [run_append]
    exact connect_wifi_eq_firstRecorded post _ hc.1 hc.2 h
  · intro v hv
    exact connect_wifi_append_of_some post more _ v hv
  · intro h
    have hset := outcome_bit_of_recorded pre h
    have hbit0 : (run init pre).bits.testBit 0 = decide (LinkEvent.GotAddress ∈ pre) := by
      rw [testBit0_run]
      show (Nat.testBit 0 0 || _) = _
      simp
    rw [connect_wifi_of_set _ _ hset, hbit0]
    by_cases hm : LinkEvent.GotAddress ∈ pre
    · simp only [hm, decide_True, if_true]
    · simp only [hm, decide_False, if_false, Bool.false_eq_true]

/-- Witness of C5, amended: a caller waiting from the start through 11
`Disconnected` events and a `GotAddress` event, and a caller that enters the
wait after all of them. -/
theorem first_finalization_wins_while_waiting_witness :
    connect_wifi (run init [])
          (List.replicate 11 LinkEvent.Disconnected ++ [LinkEvent.GotAddress])
        = (firstRecorded (run init ([] ++ (List.replicate 11 LinkEvent.Disconnected
            ++ [LinkEvent.GotAddress]))).calls).map (fun b => (b : Int))
      ∧ connect_wifi
          (run init (List.replicate 11 LinkEvent.Disconnected ++ [LinkEvent.GotAddress])) []
        = some (if LinkEvent.GotAddress
              ∈ List.replicate 11 LinkEvent.Disconnected ++ [LinkEvent.GotAddress]
            then (WIFI_SUCCESS : Int) else (WIFI_FAILURE : Int)) :=
  ⟨(first_finalization_wins_while_waiting []
      (List.replicate 11 LinkEvent.Disconnected ++ [LinkEvent.GotAddress]) []).1 (by decide),
   (first_finalization_wins_while_waiting
      (List.replicate 11 LinkEvent.Disconnected ++ [LinkEvent.GotAddress]) [] []).2.2.2
      (by decide)⟩

/-- C10: from any state with `retry = 0` and the Failure bit clear, `n`
consecutive `Disconnected` events issue exactly `min n 10` connect requests and
leave `retry = min n 10`, and the Failure bit is set afterwards if and only if
`n ≥ 11`. -/
theorem retry_policy_closed_form (s : State) (n : Nat)
    (hr : s.retry = 0) (hb : s.bits &&& WIFI_FAILURE = 0) :
    connects (run s (List.replicate n LinkEvent.Disconnected)).calls
        = connects s.calls + min n 10
      ∧ (run s (List.replicate n LinkEvent.Disconnected)).retry = ((min n 10 : Nat) : Int)
      ∧ ((run s (List.replicate n LinkEvent.Disconnected)).bits &&& WIFI_FAILURE ≠ 0
          ↔ 11 ≤ n) := by
  obtain ⟨r, b, cs⟩ := s
  simp only at hr hb
  subst hr
  rw [run_Disconnected]
  refine ⟨?_, rfl, ?_⟩
  · show connects (cs ++ List.replicate (min n 10) Call.esp_wifi_connect
        ++ List.replicate (n - 10) (Call.xEventGroupSetBits WIFI_FAILURE)) = _
    rw [connects_append, connects_append, connects_replicate_connect,
      connects_replicate_setBits]
    rfl
  · show (if n ≤ 10 then b else b ||| WIFI_FAILURE) &&& WIFI_FAILURE ≠ 0 ↔ 11 ≤ n
    by_cases hn : n ≤ 10
    · rw [if_pos hn]
      constructor
      · intro h; exact absurd hb h
      · intro h; omega
    · rw [if_neg hn, failure_bit_iff]
      constructor
      · intro _; omega
      · intro _
        show (b ||| 2).testBit 1 = true
        rw [Nat.testBit_or, testBit_two]
        simp

/-- Witness of C10 at the initial state and `n = 12`. -/
theorem retry_policy_closed_form_witness :
    init.retry = 0 ∧ init.bits &&& WIFI_FAILURE = 0
      ∧ connects (run init (List.replicate 12 LinkEvent.Disconnected)).calls
          = connects init.calls + min 12 10 :=
  ⟨rfl, by decide, (retry_policy_closed_form init 12 rfl (by decide)).1⟩

/-! ## The handshake client -/

theorem connect_tcp_server_ok (net : Net) (hs : 0 ≤ net.sock) (hc : net.conn = 0) :
    connect_tcp_server net
      = ((TCP_SUCCESS : Int),
          [TcpCall.socket, TcpCall.connect, TcpCall.logI_connected_to_TCP_server, TcpCall.read]
            ++ ((readBuffer net.rd).take
                  (read net.rd (bzero 1024) (1024 - 1)).1.toNat).map TcpCall.putchar
            ++ (if validated net.rd = true then [TcpCall.logI_connected] else [])) := by
  have h1 : ¬ net.sock < 0 := not_lt.mpr hs
  have h2 : ¬ net.conn ≠ 0 := fun h => h hc
  unfold connect_tcp_server
  rw [if_neg h1, if_neg h2]
  simp only [validated, readBuffer, decide_eq_true_eq]

/-- C6 as stated fails: the six bytes `H`, `E`, `L`, `L`, `O`, `NUL` are a
payload of between 1 and 1023 bytes that is not the five bytes `HELLO`, yet the
validation check succeeds on it; the buffer it leaves is the very buffer that
the payload `HELLO` leaves. -/
theorem validation_ignores_bytes_from_first_nul :
    1 ≤ (HELLO ++ [0]).length
      ∧ (HELLO ++ [0]).length ≤ 1023
      ∧ HELLO ++ [0] ≠ HELLO
      ∧ validated (ReadResult.bytes (HELLO ++ [0])) = true
      ∧ readBuffer (ReadResult.bytes (HELLO ++ [0])) = readBuffer (ReadResult.bytes HELLO) :=
  ⟨by decide, by decide, by decide, by decide, rfl⟩

/-- C6, amended: for every payload of `n ≤ 1023` bytes (so for `1 ≤ n ≤ 1023`)
read into the zeroed buffer, the validation check succeeds if and only if the bytes read
before the first zero byte (all of them when none is zero) are exactly
`H`, `E`, `L`, `L`, `O`; so for a payload without a zero byte it succeeds if
and only if the payload is exactly `HELLO`, and it succeeds for `HELLO`. -/
theorem validation_compares_c_string (p : List Nat) (h2 : p.length ≤ 1023) :
    (validated (ReadResult.bytes p) = true ↔ cstr p = HELLO)
      ∧ ((∀ c ∈ p, c ≠ 0) → (validated (ReadResult.bytes p) = true ↔ p = HELLO))
      ∧ validated (ReadResult.bytes HELLO) = true := by
  refine ⟨validated_bytes_iff p h2, ?_, by decide⟩
  intro hz
  rw [validated_bytes_iff p h2, cstr_of_no_zero p hz]

/-- Witness of C6, amended, at the payload `GOODBYE`. -/
theorem validation_compares_c_string_witness :
    1 ≤ GOODBYE.length ∧ GOODBYE.length ≤ 1023
      ∧ (validated (ReadResult.bytes GOODBYE) = true ↔ cstr GOODBYE = HELLO) :=
  ⟨by decide, by decide,
    (validation_compares_c_string GOODBYE (by decide)).1⟩

/-- C7 as stated fails: with the socket open and connected, the value returned
when the peer sends `GOODBYE` is the value returned when the peer sends
`HELLO`, namely `TCP_SUCCESS`, although only `HELLO` passes the validation. -/
theorem goodbye_returns_what_hello_returns :
    (connect_tcp_server ⟨3, 0, ReadResult.bytes GOODBYE⟩).1
        = (connect_tcp_server ⟨3, 0, ReadResult.bytes HELLO⟩).1
      ∧ (connect_tcp_server ⟨3, 0, ReadResult.bytes GOODBYE⟩).1 = (TCP_SUCCESS : Int)
      ∧ validated (ReadResult.bytes GOODBYE) = false
      ∧ validated (ReadResult.bytes HELLO) = true := by
  decide

/-- C7, amended: once the socket is open and connected, `connect_tcp_server`
returns `TCP_SUCCESS` whatever the read yields, for `GOODBYE` as for `HELLO`;
the result of the validation shows only in the trace, where the line
`Connected` is logged if and only if the validation check succeeds. -/
theorem validation_only_logged (net : Net) (hs : 0 ≤ net.sock) (hc : net.conn = 0) :
    (connect_tcp_server net).1 = (TCP_SUCCESS : Int)
      ∧ (TcpCall.logI_connected ∈ (connect_tcp_server net).2 ↔ validated net.rd = true) := by
  rw [connect_tcp_server_ok net hs hc]
  refine ⟨rfl, ?_⟩
  show TcpCall.logI_connected ∈ _ ++ _ ++ _ ↔ _
  rw [List.mem_append, List.mem_append]
  have hecho : TcpCall.logI_connected ∉
      ((readBuffer net.rd).take
        (read net.rd (bzero 1024) (1024 - 1)).1.toNat).map TcpCall.putchar := by
    intro h
    rw [List.mem_map] at h
    obtain ⟨c, _, hc⟩ := h
    exact TcpCall.noConfusion hc
  have hhead : TcpCall.logI_connected ∉
      [TcpCall.socket, TcpCall.connect, TcpCall.logI_connected_to_TCP_server, TcpCall.read] := by
    decide
  by_cases hv : validated net.rd = true
  · rw [if_pos hv]
    exact ⟨fun _ => hv, fun _ => Or.inr (List.mem_singleton.mpr rfl)⟩
  · rw [if_neg hv]
    constructor
    · intro h
      rcases h with (h | h) | h
      · exact absurd h hhead
      · exact absurd h hecho
      · exact absurd h (List.not_mem_nil _)
    · intro h
      exact absurd h hv

/-- Witness of C7, amended, at the payload `GOODBYE`. -/
theorem validation_only_logged_witness :
    (connect_tcp_server ⟨3, 0, ReadResult.bytes GOODBYE⟩).1 = (TCP_SUCCESS : Int) :=
  (validation_only_logged ⟨3, 0, ReadResult.bytes GOODBYE⟩ (by decide) (by decide)).1

/-- C8, the code at the failing inputs: with the socket open and connected, a
read that returns 0 (the peer closed without sending) and a read that returns
-1 both end in `TCP_SUCCESS`, which is not `TCP_FAILURE`. -/
theorem failed_read_returns_success :
    (read (ReadResult.bytes []) (bzero 1024) (1024 - 1)).1 = 0
      ∧ (connect_tcp_server ⟨3, 0, ReadResult.bytes []⟩).1 = (TCP_SUCCESS : Int)
      ∧ (read (ReadResult.error 0) (bzero 1024) (1024 - 1)).1 = -1
      ∧ (connect_tcp_server ⟨3, 0, ReadResult.error 0⟩).1 = (TCP_SUCCESS : Int)
      ∧ (TCP_SUCCESS : Int) ≠ (TCP_FAILURE : Int) := by
  decide

/-- C9: when `socket` returns a negative handle or `connect` returns non-zero,
`connect_tcp_server` returns `TCP_FAILURE` and its trace holds no read; it
returns `TCP_SUCCESS` only when both the socket creation and the connect
succeeded. -/
theorem open_failure_returns_failure (net : Net) :
    ((net.sock < 0 ∨ net.conn ≠ 0) →
        (connect_tcp_server net).1 = (TCP_FAILURE : Int)
          ∧ TcpCall.read ∉ (connect_tcp_server net).2)
      ∧ ((connect_tcp_server net).1 = (TCP_SUCCESS : Int) → 0 ≤ net.sock ∧ net.conn = 0) := by
  have hne : (TCP_FAILURE : Int) ≠ (TCP_SUCCESS : Int) := by decide
  by_cases h1 : net.sock < 0
  · have he : connect_tcp_server net
        = ((TCP_FAILURE : Int), [TcpCall.socket, TcpCall.logE_failed_to_create_socket]) := by
      unfold connect_tcp_server
      rw [if_pos h1]
    rw [he]
    exact ⟨fun _ => ⟨rfl, by decide⟩, fun h => absurd h hne⟩
  · by_cases h2 : net.conn ≠ 0
    · have he : connect_tcp_server net
          = ((TCP_FAILURE : Int),
              [TcpCall.socket, TcpCall.connect, TcpCall.logE_failed_to_connect,
                TcpCall.close]) := by
        unfold connect_tcp_server
        rw [if_neg h1, if_pos h2]
      rw [he]
      exact ⟨fun _ => ⟨rfl, by decide⟩, fun h => absurd h hne⟩
    · have hc : net.conn = 0 := not_not.mp h2
      refine ⟨fun h => ?_, fun _ => ⟨not_lt.mp h1, hc⟩⟩
      rcases h with h | h
      · exact absurd h h1
      · exact absurd h h2

/-- Witness of C9: a failed `socket`, a failed `connect`, and the success path. -/
theorem open_failure_returns_failure_witness :
    ((connect_tcp_server ⟨-1, 0, ReadResult.bytes HELLO⟩).1 = (TCP_FAILURE : Int)
        ∧ TcpCall.read ∉ (connect_tcp_server ⟨-1, 0, ReadResult.bytes HELLO⟩).2)
      ∧ ((connect_tcp_server ⟨3, -1, ReadResult.bytes HELLO⟩).1 = (TCP_FAILURE : Int)
        ∧ TcpCall.read ∉ (connect_tcp_server ⟨3, -1, ReadResult.bytes HELLO⟩).2)
      ∧ (0 ≤ (⟨3, 0, ReadResult.bytes HELLO⟩ : Net).sock
        ∧ (⟨3, 0, ReadResult.bytes HELLO⟩ : Net).conn = 0) :=
  ⟨(open_failure_returns_failure ⟨-1, 0, ReadResult.bytes HELLO⟩).1 (Or.inl (by decide)),
   (open_failure_returns_failure ⟨3, -1, ReadResult.bytes HELLO⟩).1 (Or.inr (by decide)),
   (open_failure_returns_failure ⟨3, 0, ReadResult.bytes HELLO⟩).2 (by decide)⟩

end Wifi
